import Mathlib

/-!
Verification development for the `cache-buster` asset-hash-and-rewrite
pipeline (`src/main.rs`).  The source's pure decision logic — path
normalization (`normalize_path`), hashed-filename derivation
(`update_asset`), the traversal's extension-exclusion filter inside
`execute`, and the HTML reference matcher (`match_asset`) — is embedded
shallowly below.  Rust `&str` values are modelled as Lean `String`
(whose data is a `List Char`); `std::path::Path` component arithmetic
(`file_name` / `file_stem` / `extension` / `set_file_name`) is modelled
for Unix-style paths without trailing separators, which is the only shape
this program ever feeds it (WalkDir entries and normalized reference
strings).  The `HashMap<String, String>` asset index is modelled as an
association list with unique keys, looked up by first match.  The external
`url` crate is modelled for absolute http/https URLs without userinfo or
explicit port (the only shapes in this program's scenarios): parsing
lowercases the host, rejects hosts with characters outside
alphanumeric/dot/hyphen, and always yields a path beginning with a slash;
`set_path` prepends a missing leading slash; serialization is
scheme://host path ?query #fragment.
-/

namespace CB

/-- Boolean prefix test on character lists: `isPre p l` holds when `p` is an
initial segment of `l`.  Models Rust's `str::starts_with`. -/
def isPre : List Char → List Char → Bool
  | [], _ => true
  | _ :: _, [] => false
  | a :: as, b :: bs => a == b && isPre as bs

/-- `strStartsWith s p`: the string `s` starts with `p`.  Models Rust's
`s.starts_with(p)`. -/
def strStartsWith (s p : String) : Bool :=
  isPre p.toList s.toList

/-- Split a character list on every occurrence of `c`; always returns a
nonempty list of chunks.  Backbone for the path-component model. -/
def splitOnChar (c : Char) : List Char → List (List Char)
  | [] => [[]]
  | x :: xs =>
    let r := splitOnChar c xs
    if x == c then [] :: r
    else
      match r with
      | [] => [[x]]
      | y :: ys => (x :: y) :: ys

/-- Join chunks with separator `c`; left inverse of `splitOnChar`. -/
def joinWith (c : Char) : List (List Char) → List Char
  | [] => []
  | [x] => x
  | x :: xs => x ++ c :: joinWith c xs

/-- Models `Path::file_name().unwrap_or_default()` for paths without
trailing separators: the portion after the last `/`. -/
def fileName (p : String) : String :=
  String.mk ((splitOnChar '/' p.toList).getLastD [])

/-- The dot-separated chunks of a file name. -/
def dotParts (f : String) : List (List Char) :=
  splitOnChar '.' f.toList

/-- Models Rust `Path::file_stem` applied to a bare file name `f` (and
`unwrap_or(OsStr::new(""))` as in `update_asset`): everything before the
last `.`, except that a name whose only `.` is the leading one (such as
`.gitignore`) is its own stem. -/
def file_stem (f : String) : String :=
  match dotParts f with
  | [] => f
  | [_] => f
  | ps =>
    if f.toList.headD ' ' == '.' && ps.length == 2 then f
    else String.mk (joinWith '.' ps.dropLast)

/-- Models Rust `Path::extension` applied to a bare file name `f`:
the portion after the last `.`, none when there is no `.` or when the only
`.` is the leading one. -/
def extOfFileName (f : String) : Option String :=
  match dotParts f with
  | [] => none
  | [_] => none
  | ps =>
    if f.toList.headD ' ' == '.' && ps.length == 2 then none
    else some (String.mk (ps.getLastD []))

/-- Models Rust `Path::extension` on a full path: the extension of its
final component. -/
def pathExtension (p : String) : Option String :=
  extOfFileName (fileName p)

/-- Models `PathBuf::set_file_name` for paths without trailing separators:
replace the portion after the last `/` (or the whole string when there is
no `/`). -/
def set_file_name (p newName : String) : String :=
  match (splitOnChar '/' p.toList).dropLast with
  | [] => newName
  | ds => String.mk (joinWith '/' ds ++ '/' :: newName.toList)

/-- The asset index: `HashMap<String, String>` from `execute`, modelled as
an association list from asset path to content hash. -/
abbrev AssetIndex := List (String × String)

/-- Models `assets.get(path_str)` on the asset index. -/
def lookupAsset (assets : AssetIndex) (k : String) : Option String :=
  (assets.find? (fun e => e.fst == k)).map (fun e => e.snd)

/-- Embeds `normalize_path` from `src/main.rs`: strip one leading `/`
(Rust `str::strip_prefix('/')`), otherwise return the path unchanged. -/
def normalize_path (path : String) : String :=
  if strStartsWith path "/" then String.mk (path.toList.drop 1) else path

/-- Embeds `update_asset` from `src/main.rs`: when `path_str` is a key of
the index, rebuild its file name as `{stem}_{hash}` plus the original
extension when there is one; when not a key, return `path_str` unchanged. -/
def update_asset (path_str : String) (assets : AssetIndex) : String :=
  match lookupAsset assets path_str with
  | none => path_str
  | some hash =>
    let stem := file_stem (fileName path_str)
    let base := stem ++ "_" ++ hash
    match pathExtension path_str with
    | some ext => set_file_name path_str (base ++ "." ++ ext)
    | none => set_file_name path_str base

/-- A parsed absolute URL, modelling the fields of the external `url`
crate's `Url` that this program reads or writes. -/
structure Url where
  scheme : String
  host : Option String
  path : String
  query : Option String
  fragment : Option String
deriving DecidableEq, Repr

/-- Characters the URL-host model accepts: alphanumeric, dot, hyphen.
Anything else (for instance the `[` of an unterminated IPv6 literal)
makes parsing fail, as in the `url` crate. -/
def hostChar (c : Char) : Bool :=
  c.isAlphanum || c == '.' || c == '-'

/-- A nonempty run of `hostChar`s is a valid host. -/
def validHost (l : List Char) : Bool :=
  !l.isEmpty && l.all hostChar

/-- Split the authority (everything before the first `/`, `?` or `#`)
from the rest. -/
def splitAuthority : List Char → List Char × List Char
  | [] => ([], [])
  | c :: cs =>
    if c == '/' || c == '?' || c == '#' then ([], c :: cs)
    else
      let r := splitAuthority cs
      (c :: r.fst, r.snd)

/-- Split at the first occurrence of `sep`: the part before it, and
`some` remainder when `sep` occurs. -/
def splitAtChar (sep : Char) : List Char → List Char × Option (List Char)
  | [] => ([], none)
  | c :: cs =>
    if c == sep then ([], some cs)
    else
      let r := splitAtChar sep cs
      (c :: r.fst, r.snd)

/-- Models `Url::parse` of the external `url` crate, restricted to the
absolute http/https URLs this program feeds it (no userinfo, no explicit
port): strip the scheme, take the authority as host (failing on invalid
host characters, lowercasing ASCII letters as the WHATWG parser does),
then split path, query and fragment; an empty path serializes as `/`. -/
def parseUrl (s : String) : Option Url :=
  let core : Option (String × List Char) :=
    if strStartsWith s "http://" then some ("http", s.toList.drop 7)
    else if strStartsWith s "https://" then some ("https", s.toList.drop 8)
    else none
  match core with
  | none => none
  | some (scheme, rest) =>
    let auth := (splitAuthority rest).fst
    let tail := (splitAuthority rest).snd
    if validHost auth then
      let beforeFrag := (splitAtChar '#' tail).fst
      let frag := (splitAtChar '#' tail).snd
      let pathPart := (splitAtChar '?' beforeFrag).fst
      let query := (splitAtChar '?' beforeFrag).snd
      some { scheme := scheme,
             host := some (String.mk (auth.map Char.toLower)),
             path := if pathPart.isEmpty then "/" else String.mk pathPart,
             query := query.map String.mk,
             fragment := frag.map String.mk }
    else none

/-- Models `Url::into_string`: `scheme://host` then path, `?query`,
`#fragment`. -/
def urlIntoString (u : Url) : String :=
  u.scheme ++ "://" ++ (match u.host with | some h => h | none => "")
    ++ u.path
    ++ (match u.query with | some q => "?" ++ q | none => "")
    ++ (match u.fragment with | some f => "#" ++ f | none => "")

/-- Models `Url::set_path` for http(s) URLs: a path not beginning with
`/` gets one prepended (as in the crate's documented behavior). -/
def set_path (u : Url) (p : String) : Url :=
  { u with path := if strStartsWith p "/" then p else "/" ++ p }

/-- The rewrite condition of `match_asset`, line 100 of `src/main.rs`:
`link.has_host() && link.host_str().eq(&base_url.host_str()) &&
path.starts_with(assets_path)` with `path` the normalized URL path. -/
def url_match (base_url : Url) (assets_path : String) (link : Url) : Bool :=
  link.host.isSome && link.host == base_url.host
    && strStartsWith (normalize_path link.path) assets_path

/-- The shared fall-through of `match_asset`, lines 107–112 of
`src/main.rs`: normalize `src`, rewrite through `update_asset` when it
starts with the assets root, otherwise return the normalized string. -/
def rewrite_relative (src : String) (assets_path : String)
    (assets : AssetIndex) : String :=
  let s := normalize_path src
  if strStartsWith s assets_path then update_asset s assets else s

/-- Embeds `match_asset` from `src/main.rs`: for strings with an
`http://` or `https://` prefix, parse; on parse failure return `src`
unchanged; on a host-and-root match, set the rewritten path back into
the URL and re-serialize it; otherwise (and for non-URL strings) fall
through to the relative rewrite. -/
def match_asset (src : String) (base_url : Url) (assets_path : String)
    (assets : AssetIndex) : String :=
  if strStartsWith src "http://" || strStartsWith src "https://" then
    match parseUrl src with
    | none => src
    | some link =>
      if url_match base_url assets_path link then
        let fixed_path := update_asset (normalize_path link.path) assets
        urlIntoString (set_path link fixed_path)
      else rewrite_relative src assets_path assets
  else rewrite_relative src assets_path assets

/-- Embeds the traversal filter of `execute`, line 119 of `src/main.rs`:
`!ignored_exts.contains(&String::from(el.path().extension().unwrap().to_str().unwrap()))`.
The `extension().unwrap()` panics when the path has no extension; the
panic is modelled as `none`, and `some b` means the filter keeps (`true`)
or skips (`false`) the file. -/
def keep_file (ignored_exts : List String) (p : String) : Option Bool :=
  match pathExtension p with
  | none => none
  | some ext => some (!(ignored_exts.contains ext))

/-- Modelled from the spec: section 4.3's filter, under which a file with
no extension "is treated as not matching any excluded extension and is
hashed normally" — it is always kept, never a crash. -/
def keep_file_spec (ignored_exts : List String) (p : String) : Bool :=
  match pathExtension p with
  | none => true
  | some ext => !(ignored_exts.contains ext)

/-- Embeds the renaming pass of `execute`, line 184 of `src/main.rs`:
the new on-disk name of an indexed file is `update_asset(file, &assets_hashes)`. -/
def rename_target (file : String) (assets : AssetIndex) : String :=
  update_asset file assets

/-- Modelled from the spec: the HashedFilename derivation of section 3,
`{stem}_{hash}.{extension}`, the extension omitted (no trailing dot) when
the original file name has none. -/
def hashedFilename (f hash : String) : String :=
  match extOfFileName f with
  | some ext => file_stem f ++ "_" ++ hash ++ "." ++ ext
  | none => file_stem f ++ "_" ++ hash

/-- The base URL of the worked scenarios:
`Url::parse("https://example.com")`. -/
def exampleBase : Url :=
  { scheme := "https", host := some "example.com", path := "/",
    query := none, fragment := none }

/-- `true` when `src` does not resolve, under the URL model, to an
absolute URL passing the host-and-root rewrite test of `match_asset`. -/
def no_url_match (base_url : Url) (assets_path : String) (src : String) : Bool :=
  match parseUrl src with
  | none => true
  | some u => !(url_match base_url assets_path u)

/-- The parse of `http://EXAMPLE.com/assets/x.js`: host lowercased by the
URL library. -/
def c9url : Url :=
  { scheme := "http", host := some "example.com", path := "/assets/x.js",
    query := none, fragment := none }

/-- A successful character-list prefix test forces the head of the longer
list. -/
theorem isPre_head {a : Char} {as l : List Char} (h : isPre (a :: as) l = true) :
    ∃ bs, l = a :: bs := by
  cases l with
  | nil => simp [isPre] at h
  | cons b bs =>
    simp [isPre] at h
    exact ⟨bs, by rw [h.1]⟩

/-- A string beginning with `http://` or `https://` does not begin with a
slash. -/
theorem no_slash_of_scheme (s : String)
    (h : (strStartsWith s "http://" || strStartsWith s "https://") = true) :
    strStartsWith s "/" = false := by
  unfold strStartsWith at h ⊢
  rw [show ("/" : String).toList = ['/'] from rfl]
  rw [Bool.or_eq_true] at h
  rcases h with h1 | h1
  · rw [show ("http://" : String).toList = 'h' :: ("ttp://" : String).toList from rfl] at h1
    obtain ⟨bs, hbs⟩ := isPre_head h1
    rw [hbs]
    simp +decide [isPre]
  · rw [show ("https://" : String).toList = 'h' :: ("ttps://" : String).toList from rfl] at h1
    obtain ⟨bs, hbs⟩ := isPre_head h1
    rw [hbs]
    simp +decide [isPre]

/-- `normalize_path` leaves a string without a leading slash unchanged. -/
theorem normalize_path_of_no_slash (s : String) (h : strStartsWith s "/" = false) :
    normalize_path s = s := by
  simp [normalize_path, h]

/-- Re-attaching one slash undoes `normalize_path` on a string with a
leading slash: exactly one separator is stripped. -/
theorem slash_append_normalize (s : String) (h : strStartsWith s "/" = true) :
    "/" ++ normalize_path s = s := by
  obtain ⟨l⟩ := s
  unfold strStartsWith at h
  rw [show ("/" : String).toList = ['/'] from rfl] at h
  obtain ⟨bs, hbs⟩ := isPre_head h
  have hl : l = '/' :: bs := hbs
  subst hl
  show "/" ++ normalize_path (String.mk ('/' :: bs)) = String.mk ('/' :: bs)
  have hpos : strStartsWith (String.mk ('/' :: bs)) "/" = true := by
    unfold strStartsWith
    rw [show ("/" : String).toList = ['/'] from rfl]
    simp [isPre]
  rw [normalize_path, if_pos hpos]
  rfl

/-- A string the URL model parses begins with `http://` or `https://`. -/
theorem parseUrl_scheme (s : String) (u : Url) (h : parseUrl s = some u) :
    (strStartsWith s "http://" || strStartsWith s "https://") = true := by
  by_cases h1 : strStartsWith s "http://" = true
  · simp [h1]
  · by_cases h2 : strStartsWith s "https://" = true
    · simp [h2]
    · exfalso
      rw [Bool.not_eq_true] at h1 h2
      simp [parseUrl, h1, h2] at h

/-- C1: the asset-index traversal filter calls `extension().unwrap()` on
every regular file, so a file with no extension — `assets/LICENSE` — makes
the `unwrap` panic (modelled `none`) and crashes the run, with or without a
configured exclusion list, whereas the spec's filter keeps the file. -/
theorem c1_no_extension_file_crashes_filter :
    keep_file ["map"] "assets/LICENSE" = none
    ∧ keep_file [] "assets/LICENSE" = none
    ∧ keep_file_spec ["map"] "assets/LICENSE" = true := by
  decide

/-- C2 counterexample: `/other/x.js` with assets root `assets` neither
resolves to a matching URL nor starts with the root after normalization,
yet `match_asset` returns `other/x.js`, not the input byte for byte. -/
theorem c2_counterexample :
    no_url_match exampleBase "assets" "/other/x.js" = true
    ∧ strStartsWith (normalize_path "/other/x.js") "assets" = false
    ∧ match_asset "/other/x.js" exampleBase "assets" [] = "other/x.js"
    ∧ "other/x.js" ≠ "/other/x.js" := by
  decide

/-- C2 amended: a `src` that neither resolves to an absolute URL passing
the host-and-root test nor starts with the assets root after normalization
is returned as `normalize_path src` — byte-for-byte unchanged exactly when
it has no leading separator. -/
theorem c2_passthrough_is_normalized (src : String) (base_url : Url)
    (assets_path : String) (assets : AssetIndex)
    (hurl : no_url_match base_url assets_path src = true)
    (hrel : strStartsWith (normalize_path src) assets_path = false) :
    match_asset src base_url assets_path assets = normalize_path src := by
  unfold match_asset rewrite_relative
  by_cases hs : (strStartsWith src "http://" || strStartsWith src "https://") = true
  · rw [if_pos hs]
    cases hp : parseUrl src with
    | none => exact (normalize_path_of_no_slash src (no_slash_of_scheme src hs)).symm
    | some u =>
      have hu : url_match base_url assets_path u = false := by
        simpa [no_url_match, hp] using hurl
      simp [hu, hrel]
  · rw [Bool.not_eq_true] at hs
    simp [hs, hrel]

/-- C2 witness: the amended passthrough at the concrete non-asset input
`img/x.png`. -/
theorem c2_witness :
    no_url_match exampleBase "assets" "img/x.png" = true
    ∧ strStartsWith (normalize_path "img/x.png") "assets" = false
    ∧ match_asset "img/x.png" exampleBase "assets" [] = "img/x.png" := by
  refine ⟨by decide, by decide, ?_⟩
  rw [c2_passthrough_is_normalized "img/x.png" exampleBase "assets" []
    (by decide) (by decide)]
  decide

/-- C3 counterexample: with assets root `public/assets` and index key
`public/assets/app.js` hashing to `abc123`, the reference `/assets/app.js`
is not rewritten to `/assets/app_abc123.js`; it comes back slash-stripped
as `assets/app.js`, because `assets/app.js` does not start with the
configured root string `public/assets`. -/
theorem c3_counterexample :
    match_asset "/assets/app.js" exampleBase "public/assets"
      [("public/assets/app.js", "abc123")] = "assets/app.js"
    ∧ "assets/app.js" ≠ "/assets/app_abc123.js" := by
  decide

/-- C3 amended: against root `public/assets`, only the full-root reference
`/public/assets/app.js` is rewritten, and the result drops the leading
slash: `public/assets/app_abc123.js`; the on-disk rename target of the
indexed file is the same `app_abc123.js` name. -/
theorem c3_rewrite_full_root :
    match_asset "/public/assets/app.js" exampleBase "public/assets"
      [("public/assets/app.js", "abc123")] = "public/assets/app_abc123.js"
    ∧ rename_target "public/assets/app.js" [("public/assets/app.js", "abc123")]
      = "public/assets/app_abc123.js" := by
  decide

/-- C4: with base URL `https://example.com` and root `assets`, the
same-host absolute reference to `assets/logo.png` (hash `deadbeef`) is
rewritten inside the URL, and the `other.com` variant is returned
unchanged. -/
theorem c4_same_host_url_rewrite :
    match_asset "https://example.com/assets/logo.png" exampleBase "assets"
      [("assets/logo.png", "deadbeef")]
      = "https://example.com/assets/logo_deadbeef.png"
    ∧ match_asset "https://other.com/assets/logo.png" exampleBase "assets"
      [("assets/logo.png", "deadbeef")]
      = "https://other.com/assets/logo.png" := by
  decide

/-- C5: a `src` with an `http://` or `https://` prefix that the URL
library fails to parse is returned unchanged; the embedding is total, so
no error is raised and no repair is attempted. -/
theorem c5_malformed_url_unchanged (src : String) (base_url : Url)
    (assets_path : String) (assets : AssetIndex)
    (hs : (strStartsWith src "http://" || strStartsWith src "https://") = true)
    (hf : parseUrl src = none) :
    match_asset src base_url assets_path assets = src := by
  unfold match_asset
  simp [hs, hf]

/-- C5 witness: the malformed URL `http://[bad` of Scenario 5. -/
theorem c5_witness :
    (strStartsWith "http://[bad" "http://" || strStartsWith "http://[bad" "https://") = true
    ∧ parseUrl "http://[bad" = none
    ∧ match_asset "http://[bad" exampleBase "assets" [] = "http://[bad" := by
  exact ⟨by decide, by decide,
    c5_malformed_url_unchanged "http://[bad" exampleBase "assets" []
      (by decide) (by decide)⟩

/-- C6: for an indexed path, `update_asset` produces exactly the spec's
HashedFilename `{stem}_{hash}.{extension}` substituted as the file name —
with no trailing dot (the extension clause absent) when the original file
name has no extension — and the renaming pass derives its target through
the very same computation. -/
theorem c6_hashed_filename_format (p hash : String) (assets : AssetIndex)
    (hl : lookupAsset assets p = some hash) :
    update_asset p assets = set_file_name p (hashedFilename (fileName p) hash)
    ∧ rename_target p assets = set_file_name p (hashedFilename (fileName p) hash)
    ∧ (extOfFileName (fileName p) = none →
        update_asset p assets
          = set_file_name p (file_stem (fileName p) ++ "_" ++ hash)) := by
  have key : update_asset p assets = set_file_name p (hashedFilename (fileName p) hash) := by
    unfold update_asset hashedFilename pathExtension
    rw [hl]
    cases hext : extOfFileName (fileName p) <;> simp [hext]
  refine ⟨key, key, fun hnone => ?_⟩
  rw [key]
  unfold hashedFilename
  rw [hnone]

/-- C6 witness: the extension-less indexed file `assets/LICENSE` hashing
to `deadbeef` renames to `LICENSE_deadbeef`, no trailing dot. -/
theorem c6_witness :
    lookupAsset [("assets/LICENSE", "deadbeef")] "assets/LICENSE" = some "deadbeef"
    ∧ extOfFileName (fileName "assets/LICENSE") = none
    ∧ update_asset "assets/LICENSE" [("assets/LICENSE", "deadbeef")]
      = set_file_name "assets/LICENSE" (file_stem (fileName "assets/LICENSE") ++ "_" ++ "deadbeef") := by
  exact ⟨by decide, by decide,
    (c6_hashed_filename_format "assets/LICENSE" "deadbeef"
      [("assets/LICENSE", "deadbeef")] (by decide)).2.2 (by decide)⟩

/-- C7 counterexample: `/assets/app.js.map` normalizes into the root
`assets` and is not indexed, yet `match_asset` returns the slash-stripped
`assets/app.js.map`, not the reference unchanged. -/
theorem c7_counterexample :
    strStartsWith (normalize_path "/assets/app.js.map") "assets" = true
    ∧ lookupAsset [("assets/app.js", "abc123")] (normalize_path "/assets/app.js.map") = none
    ∧ match_asset "/assets/app.js.map" exampleBase "assets"
      [("assets/app.js", "abc123")] = "assets/app.js.map"
    ∧ "assets/app.js.map" ≠ "/assets/app.js.map" := by
  decide

/-- C7 amended: a non-URL reference whose normalized form starts with the
assets root but is not an index key is returned as its normalized form —
no hash rewrite, no error — hence byte-for-byte unchanged exactly when it
has no leading separator. -/
theorem c7_unindexed_passthrough (src : String) (base_url : Url)
    (assets_path : String) (assets : AssetIndex)
    (hs : (strStartsWith src "http://" || strStartsWith src "https://") = false)
    (hroot : strStartsWith (normalize_path src) assets_path = true)
    (hidx : lookupAsset assets (normalize_path src) = none) :
    match_asset src base_url assets_path assets = normalize_path src := by
  unfold match_asset rewrite_relative
  simp [hs, hroot, update_asset, hidx]

/-- C7 witness: Scenario 3's excluded file `assets/app.js.map`, referenced
without a leading slash, is returned unchanged. -/
theorem c7_witness :
    (strStartsWith "assets/app.js.map" "http://" || strStartsWith "assets/app.js.map" "https://") = false
    ∧ strStartsWith (normalize_path "assets/app.js.map") "assets" = true
    ∧ lookupAsset [("assets/app.js", "abc123")] (normalize_path "assets/app.js.map") = none
    ∧ match_asset "assets/app.js.map" exampleBase "assets"
      [("assets/app.js", "abc123")] = "assets/app.js.map" := by
  refine ⟨by decide, by decide, by decide, ?_⟩
  rw [c7_unindexed_passthrough "assets/app.js.map" exampleBase "assets"
    [("assets/app.js", "abc123")] (by decide) (by decide) (by decide)]
  decide

/-- C8: `normalize_path` is pure and total; it fixes any path without a
leading separator (hence is idempotent there), and on a path with a
leading separator it strips exactly one: prepending `/` restores the
input. -/
theorem c8_normalize_contract (p q : String)
    (hp : strStartsWith p "/" = false) (hq : strStartsWith q "/" = true) :
    normalize_path p = p
    ∧ normalize_path (normalize_path p) = normalize_path p
    ∧ "/" ++ normalize_path q = q := by
  refine ⟨normalize_path_of_no_slash p hp, ?_, slash_append_normalize q hq⟩
  rw [normalize_path_of_no_slash p hp, normalize_path_of_no_slash p hp]

/-- C8 witness: the contract at `assets/app.js` and `/assets/app.js`. -/
theorem c8_witness :
    strStartsWith "assets/app.js" "/" = false
    ∧ strStartsWith "/assets/app.js" "/" = true
    ∧ normalize_path "assets/app.js" = "assets/app.js"
    ∧ "/" ++ normalize_path "/assets/app.js" = "/assets/app.js" := by
  have h := c8_normalize_contract "assets/app.js" "/assets/app.js"
    (by decide) (by decide)
  exact ⟨by decide, by decide, h.1, h.2.2⟩

/-- C9: a parseable same-host URL whose normalized path starts with the
root but is not indexed still flows through the rewrite branch: the
unchanged path is set back into the URL and the URL is re-serialized, so
the output is the model's serialization, not the input text. -/
theorem c9_reserialize_without_rewrite (src : String) (base_url : Url)
    (assets_path : String) (assets : AssetIndex) (u : Url)
    (hp : parseUrl src = some u)
    (hm : url_match base_url assets_path u = true)
    (hn : lookupAsset assets (normalize_path u.path) = none) :
    match_asset src base_url assets_path assets
      = urlIntoString (set_path u (normalize_path u.path)) := by
  unfold match_asset
  rw [parseUrl_scheme src u hp]
  simp [hp, hm, update_asset, hn]

/-- C9 witness: `http://EXAMPLE.com/assets/x.js` is not indexed, yet the
output is the re-serialized URL with the host lowercased by the parser —
textually different from the input. -/
theorem c9_witness :
    parseUrl "http://EXAMPLE.com/assets/x.js" = some c9url
    ∧ url_match exampleBase "assets" c9url = true
    ∧ lookupAsset [("assets/logo.png", "deadbeef")] (normalize_path c9url.path) = none
    ∧ match_asset "http://EXAMPLE.com/assets/x.js" exampleBase "assets"
      [("assets/logo.png", "deadbeef")] = "http://example.com/assets/x.js"
    ∧ "http://example.com/assets/x.js" ≠ "http://EXAMPLE.com/assets/x.js" := by
  refine ⟨by decide, by decide, by decide, ?_, by decide⟩
  rw [c9_reserialize_without_rewrite "http://EXAMPLE.com/assets/x.js" exampleBase
    "assets" [("assets/logo.png", "deadbeef")] c9url (by decide) (by decide) (by decide)]
  decide

/-- C10: the assets-root test of `match_asset` is a plain string-prefix
check — any non-URL `src` whose normalized form has the root as a
character prefix, separator or not, is handed to the index lookup of
`update_asset` rather than recognized as outside the root. -/
theorem c10_prefix_check_not_component (src : String) (base_url : Url)
    (assets_path : String) (assets : AssetIndex)
    (hs : (strStartsWith src "http://" || strStartsWith src "https://") = false)
    (hroot : strStartsWith (normalize_path src) assets_path = true) :
    match_asset src base_url assets_path assets
      = update_asset (normalize_path src) assets := by
  unfold match_asset rewrite_relative
  simp [hs, hroot]

/-- C10 witness: `assets-old/x.js` against root `assets` is treated as an
asset candidate — with it present in the index it even gets rewritten to
`assets-old/x_h1.js`. -/
theorem c10_witness :
    (strStartsWith "assets-old/x.js" "http://" || strStartsWith "assets-old/x.js" "https://") = false
    ∧ strStartsWith (normalize_path "assets-old/x.js") "assets" = true
    ∧ match_asset "assets-old/x.js" exampleBase "assets"
      [("assets-old/x.js", "h1")] = "assets-old/x_h1.js" := by
  refine ⟨by decide, by decide, ?_⟩
  rw [c10_prefix_check_not_component "assets-old/x.js" exampleBase "assets"
    [("assets-old/x.js", "h1")] (by decide) (by decide)]
  decide

end CB
